import Mathlib

/-!
Verification of the `docker_utils_aba` helper module (repository `a-ba/docker-utils`).

The module contains three functions:

* `die(fmt, *k)`       — `sys.stderr.write("error: %s\n" % (fmt % k)); sys.exit(1)`
* `docker_version()`   — runs `docker -v`, matches the captured stdout bytes against
                         the regex `br"Docker version (\d+)\.(\d+)\.(\d+)"` (a prefix
                         match via `re.match`), returns `tuple(map(int, mo.groups()))`
                         on success and calls `die` on failure
* `pkg_file(path)`     — `pkg_resources.resource_filename(Requirement.parse("docker-utils-aba"),
                         os.path.join("docker_utils_aba", path))`

Byte strings are embedded as `List Nat` (one entry per byte).  The external
`docker -v` output is an explicit argument of the embedded `docker_version`,
and the resolved installation root of the distribution is an explicit argument
of the embedded `pkg_file`.
-/

namespace DockerUtils

/-- Outcome of a call in the embedded semantics: the call returns a value,
terminates the whole process (the string is what was written to stderr,
the number is the exit status), or raises an (uncaught) exception. -/
inductive ProcResult (α : Type) where
  | ret (val : α)
  | exit (stderr : String) (code : Nat)
  | raise
  deriving DecidableEq, Repr

/-- Drop a literal sequence from the front of a list: `some` of the remainder
when the first argument is an initial segment of the second, `none` otherwise. -/
def dropLit {α : Type} [DecidableEq α] : List α → List α → Option (List α)
  | [], l => some l
  | _ :: _, [] => none
  | p :: ps, b :: bs => if b = p then dropLit ps bs else none

/-- The bytes of an ASCII string, as produced by a Python byte literal. -/
def strBytes (s : String) : List Nat :=
  s.data.map Char.toNat

/-- ASCII decimal digit test on a byte: what `\d` matches in a bytes regex. -/
def isDigit (b : Nat) : Bool :=
  decide (48 ≤ b) && decide (b ≤ 57)

/-- Every byte of the list is an ASCII digit. -/
def digitsOnly (l : List Nat) : Bool :=
  l.all isDigit

/-- The list is empty or does not begin with an ASCII digit. -/
def noDigitHead : List Nat → Bool
  | [] => true
  | b :: _ => ! isDigit b

/-- The maximal run of ASCII digits at the front of the list, paired with the rest:
the maximal-munch behaviour of the greedy `\d+`. -/
def takeDigits : List Nat → List Nat × List Nat
  | [] => ([], [])
  | b :: bs =>
    if isDigit b then
      (b :: (takeDigits bs).1, (takeDigits bs).2)
    else
      ([], b :: bs)

/-- The value of Python `int()` on a byte string of ASCII digits
(decimal, unbounded, leading zeros allowed). -/
def intOfBytes (l : List Nat) : Int :=
  l.foldl (fun a b => a * 10 + ((b : Int) - 48)) 0

/-- Embeds `re.match(br"Docker version (\d+)\.(\d+)\.(\d+)", out)` followed by
`tuple(map(int, mo.groups()))`.  `re.match` anchors at the start of `out` only,
so trailing bytes are ignored.  Each greedy `(\d+)` takes the maximal digit run:
backtracking to a shorter run cannot help, since the regex then demands a literal
`.` (byte 46) where an unconsumed digit stands, and the final `(\d+)` is followed
by nothing. -/
def matchVersion (out : List Nat) : Option (Int × Int × Int) :=
  match dropLit (strBytes ("Docker version ")) out with
  | none => none
  | some r1 =>
    if (takeDigits r1).1 = [] then none else
    match dropLit [46] (takeDigits r1).2 with
    | none => none
    | some r3 =>
      if (takeDigits r3).1 = [] then none else
      match dropLit [46] (takeDigits r3).2 with
      | none => none
      | some r5 =>
        if (takeDigits r5).1 = [] then none else
        some (intOfBytes (takeDigits r1).1, intOfBytes (takeDigits r3).1,
          intOfBytes (takeDigits r5).1)

/-- Python `%` string interpolation (`fmt % args`) on the fragment the module
uses: `%s` conversions (with string substitution values) and the `%%` escape,
over the characters of the template.  `none` embeds the exception Python raises
when the interpolation is undefined: too few substitution values
(`TypeError: not enough arguments for format string`), surplus values
(`TypeError: not all arguments converted during string formatting`), a
trailing `%` (`ValueError: incomplete format`), or a conversion outside the
modelled fragment. -/
def pyInterpAux : List Char → List String → Option (List Char)
  | [], [] => some []
  | [], _ :: _ => none
  | '%' :: 's' :: rest, a :: args => (pyInterpAux rest args).map (fun t => a.data ++ t)
  | '%' :: 's' :: _, [] => none
  | '%' :: '%' :: rest, args => (pyInterpAux rest args).map (fun t => '%' :: t)
  | '%' :: _ :: _, _ => none
  | ['%'], _ => none
  | c :: rest, args => (pyInterpAux rest args).map (fun t => c :: t)

/-- `fmt % args` as a `String` operation (see `pyInterpAux`). -/
def pyInterp (fmt : String) (args : List String) : Option String :=
  (pyInterpAux fmt.data args).map (fun l => ⟨l⟩)

/-- Embeds `die(fmt, *k)`:
`sys.stderr.write("error: %s\n" % (fmt % k)); sys.exit(1)`.
When either interpolation is undefined the exception propagates before anything
is written and before `sys.exit` runs (`ProcResult.raise`); otherwise the
interpolated message is written to stderr inside `"error: ...\n"` and the
process exits with status 1. -/
def die {α : Type} (fmt : String) (args : List String) : ProcResult α :=
  match pyInterp fmt args with
  | none => ProcResult.raise
  | some msg =>
    match pyInterp ("error: %s\n") [msg] with
    | none => ProcResult.raise
    | some s => ProcResult.exit s 1

/-- The fixed diagnostic message passed to `die` by `docker_version`. -/
def dockerVersionErr : String :=
  "unable to parse a version number from the output of \x27docker -v\x27"

/-- Embeds `docker_version()` as a function of the bytes captured from
`docker -v`: on a regex match it returns the three components as integers,
otherwise it calls `die` with the fixed diagnostic. -/
def docker_version (out : List Nat) : ProcResult (Int × Int × Int) :=
  match matchVersion out with
  | some v => ProcResult.ret v
  | none => die dockerVersionErr []

/-- The byte string `b"Docker version " ++ xs ++ b"." ++ ys ++ b"." ++ zs ++ t`:
a version banner with components `xs`, `ys`, `zs` and trailing bytes `t`
(46 is the byte of `.`). -/
def bannerBytes (xs ys zs t : List Nat) : List Nat :=
  strBytes ("Docker version ") ++ xs ++ [46] ++ ys ++ [46] ++ zs ++ t

/-- The input begins with the literal prefix `Docker version ` followed by three
dot-separated nonempty decimal digit sequences (then anything). -/
def BannerShape (out : List Nat) : Prop :=
  ∃ xs ys zs t, xs ≠ [] ∧ ys ≠ [] ∧ zs ≠ [] ∧
    digitsOnly xs = true ∧ digitsOnly ys = true ∧ digitsOnly zs = true ∧
    out = bannerBytes xs ys zs t

/-- Python `s.startswith(p)` restricted to what `posixpath.join` needs. -/
def strStartsWith (s p : String) : Bool :=
  (dropLit p.data s.data).isSome

/-- Python `s.endswith(p)` restricted to what `posixpath.join` needs. -/
def strEndsWith (s p : String) : Bool :=
  (dropLit p.data.reverse s.data.reverse).isSome

/-- Embeds `os.path.join(a, b)` for two components on POSIX
(`posixpath.join`): an absolute second component discards the first; otherwise
the components are concatenated, inserting a separator unless the first
component is empty or already ends with one. -/
def os_path_join (a b : String) : String :=
  if strStartsWith b ("/") then b
  else if a = "" then a ++ b
  else if strEndsWith a ("/") then a ++ b
  else a ++ "/" ++ b

/-- Modelled from the spec: `pkg_resources.resource_filename` belongs to the
third-party `pkg_resources` library, whose code is not part of this repository.
Per the spec it returns the absolute filesystem path of an installed resource
by combining the resolved package-installation root of the named distribution
(here the explicit `root` argument, standing for the result of resolving
`Requirement.parse("docker-utils-aba")`) with the resource name. -/
def resource_filename (root : String) (name : String) : String :=
  os_path_join root name

/-- Embeds `pkg_file(path)`:
`resource_filename(Requirement.parse("docker-utils-aba"), os.path.join("docker_utils_aba", path))`,
with `root` the resolved installation root of the distribution. -/
def pkg_file (root : String) (path : String) : String :=
  resource_filename root (os_path_join ("docker_utils_aba") path)

/-! ### Helper lemmas about the byte-level parsing primitives -/

theorem dropLit_eq_some {α : Type} [DecidableEq α] (p : List α) :
    ∀ l r : List α, dropLit p l = some r ↔ l = p ++ r := by
  induction p with
  | nil =>
    intro l r
    simp [dropLit]
  | cons x xs ih =>
    intro l r
    cases l with
    | nil => simp [dropLit]
    | cons b bs =>
      by_cases hb : b = x
      · subst hb
        simp [dropLit, ih]
      · simp [dropLit, hb, Ne.symm hb]

theorem dropLit_append {α : Type} [DecidableEq α] (p : List α) (l : List α) :
    dropLit p (p ++ l) = some l :=
  (dropLit_eq_some p (p ++ l) l).mpr rfl

theorem takeDigits_append (ds : List Nat) (t : List Nat)
    (hd : digitsOnly ds = true) (ht : noDigitHead t = true) :
    takeDigits (ds ++ t) = (ds, t) := by
  induction ds with
  | nil =>
    cases t with
    | nil => rfl
    | cons b bs =>
      simp only [noDigitHead, Bool.not_eq_true'] at ht
      simp [takeDigits, ht]
  | cons d ds ih =>
    simp only [digitsOnly, List.all_cons, Bool.and_eq_true] at hd
    have ih2 := ih hd.2
    simp [takeDigits, hd.1, ih2]

theorem takeDigits_decomp : ∀ l : List Nat,
    (takeDigits l).1 ++ (takeDigits l).2 = l ∧ digitsOnly (takeDigits l).1 = true := by
  intro l
  induction l with
  | nil => simp [takeDigits, digitsOnly]
  | cons b bs ih =>
    by_cases hb : isDigit b = true
    · refine ⟨?_, ?_⟩
      · simpa [takeDigits, hb] using ih.1
      · have h2 := ih.2
        simp only [takeDigits, hb, if_true]
        simp only [digitsOnly, List.all_cons, hb, Bool.true_and]
        simpa [digitsOnly] using h2
    · simp [takeDigits, hb, digitsOnly]

theorem takeDigits_cons_ne_nil (b : Nat) (l : List Nat) (hb : isDigit b = true) :
    (takeDigits (b :: l)).1 ≠ [] := by
  simp [takeDigits, hb]

theorem intOfBytes_go_nonneg : ∀ (l : List Nat) (a : Int), 0 ≤ a → digitsOnly l = true →
    0 ≤ l.foldl (fun a b => a * 10 + ((b : Int) - 48)) a := by
  intro l
  induction l with
  | nil => intro a ha _; simpa using ha
  | cons b bs ih =>
    intro a ha hd
    simp only [digitsOnly, List.all_cons, Bool.and_eq_true] at hd
    have hb : (48 : Int) ≤ (b : Int) := by
      have := hd.1
      simp only [isDigit, Bool.and_eq_true, decide_eq_true_eq] at this
      exact_mod_cast this.1
    have ha2 : 0 ≤ a * 10 + ((b : Int) - 48) := by
      have : (0 : Int) ≤ a * 10 := by positivity
      omega
    simpa [List.foldl_cons] using ih (a * 10 + ((b : Int) - 48)) ha2 hd.2

theorem intOfBytes_nonneg (l : List Nat) (hd : digitsOnly l = true) :
    0 ≤ intOfBytes l :=
  intOfBytes_go_nonneg l 0 le_rfl hd

theorem noDigitHead_dot (l : List Nat) : noDigitHead (46 :: l) = true := by
  simp [noDigitHead, isDigit]

/-- On a well-shaped banner whose trailing bytes do not begin with a digit,
the embedded regex match succeeds with the three components. -/
theorem matchVersion_banner (xs ys zs t : List Nat)
    (hx : xs ≠ []) (hy : ys ≠ []) (hz : zs ≠ [])
    (dx : digitsOnly xs = true) (dy : digitsOnly ys = true) (dz : digitsOnly zs = true)
    (ht : noDigitHead t = true) :
    matchVersion (bannerBytes xs ys zs t) =
      some (intOfBytes xs, intOfBytes ys, intOfBytes zs) := by
  have e0 : bannerBytes xs ys zs t =
      strBytes ("Docker version ") ++ (xs ++ (46 :: (ys ++ (46 :: (zs ++ t))))) := by
    simp [bannerBytes]
  have h1 : dropLit (strBytes ("Docker version ")) (bannerBytes xs ys zs t)
      = some (xs ++ (46 :: (ys ++ (46 :: (zs ++ t))))) := by
    rw [e0]; exact dropLit_append _ _
  have h2 : takeDigits (xs ++ (46 :: (ys ++ (46 :: (zs ++ t))))) =
      (xs, 46 :: (ys ++ (46 :: (zs ++ t)))) :=
    takeDigits_append _ _ dx (noDigitHead_dot _)
  have h3 : takeDigits (ys ++ (46 :: (zs ++ t))) = (ys, 46 :: (zs ++ t)) :=
    takeDigits_append _ _ dy (noDigitHead_dot _)
  have h4 : takeDigits (zs ++ t) = (zs, t) :=
    takeDigits_append _ _ dz ht
  have hdot : ∀ l : List Nat, dropLit [46] ((46 : Nat) :: l) = some l := by
    intro l
    exact dropLit_append [46] l
  simp only [matchVersion, h1, h2, h3, h4, hdot]
  simp [hx, hy, hz]

/-- A successful embedded regex match decomposes the input into a banner shape,
with the result the decimal values of the three matched digit groups. -/
theorem matchVersion_some_shape (out : List Nat) (v : Int × Int × Int)
    (h : matchVersion out = some v) :
    ∃ xs ys zs t, xs ≠ [] ∧ ys ≠ [] ∧ zs ≠ [] ∧
      digitsOnly xs = true ∧ digitsOnly ys = true ∧ digitsOnly zs = true ∧
      out = bannerBytes xs ys zs t ∧
      v = (intOfBytes xs, intOfBytes ys, intOfBytes zs) := by
  unfold matchVersion at h
  cases e1 : dropLit (strBytes ("Docker version ")) out with
  | none => rw [e1] at h; exact absurd h (by simp)
  | some r1 =>
    rw [e1] at h
    dsimp only at h
    have hout : out = strBytes ("Docker version ") ++ r1 := (dropLit_eq_some _ _ _).mp e1
    by_cases n1 : (takeDigits r1).1 = []
    · rw [if_pos n1] at h; exact absurd h (by simp)
    rw [if_neg n1] at h
    cases e2 : dropLit [46] (takeDigits r1).2 with
    | none => rw [e2] at h; exact absurd h (by simp)
    | some r3 =>
      rw [e2] at h
      dsimp only at h
      have hr2 : (takeDigits r1).2 = 46 :: r3 := by
        have := (dropLit_eq_some [46] _ _).mp e2
        simpa using this
      by_cases n2 : (takeDigits r3).1 = []
      · rw [if_pos n2] at h; exact absurd h (by simp)
      rw [if_neg n2] at h
      cases e3 : dropLit [46] (takeDigits r3).2 with
      | none => rw [e3] at h; exact absurd h (by simp)
      | some r5 =>
        rw [e3] at h
        dsimp only at h
        have hr4 : (takeDigits r3).2 = 46 :: r5 := by
          have := (dropLit_eq_some [46] _ _).mp e3
          simpa using this
        by_cases n3 : (takeDigits r5).1 = []
        · rw [if_pos n3] at h; exact absurd h (by simp)
        rw [if_neg n3] at h
        refine ⟨(takeDigits r1).1, (takeDigits r3).1, (takeDigits r5).1,
          (takeDigits r5).2, n1, n2, n3,
          (takeDigits_decomp r1).2, (takeDigits_decomp r3).2, (takeDigits_decomp r5).2,
          ?_, ?_⟩
        · have d1 := (takeDigits_decomp r1).1
          have d2 := (takeDigits_decomp r3).1
          have d3 := (takeDigits_decomp r5).1
          have hr1 : r1 = (takeDigits r1).1 ++ 46 :: r3 := by rw [← hr2, d1]
          have hr3 : r3 = (takeDigits r3).1 ++ 46 :: r5 := by rw [← hr4, d2]
          have hr5 : r5 = (takeDigits r5).1 ++ (takeDigits r5).2 := d3.symm
          rw [hout]
          conv_lhs => rw [hr1, hr3, hr5]
          simp [bannerBytes]
        · simpa using h.symm

/-- Interpolating one message into the literal template of `die` always
succeeds and wraps the message in the error prefix and a newline. -/
theorem pyInterp_error_line (m : String) :
    pyInterp ("error: %s\n") [m] = some ("error: " ++ m ++ "\n") := by
  show some (String.mk _) = _
  rw [Option.some.injEq]
  apply String.ext
  show ('e' :: 'r' :: 'r' :: 'o' :: 'r' :: ':' :: ' ' :: (m.data ++ ['\n'])) = _
  simp

/-- The input has the banner shape (with arbitrary trailing bytes) exactly when
the embedded regex match succeeds. -/
theorem bannerShape_iff_isSome (out : List Nat) :
    BannerShape out ↔ (matchVersion out).isSome = true := by
  constructor
  · rintro ⟨xs, ys, zs, t, hx, hy, hz, dx, dy, dz, rfl⟩
    have e0 : bannerBytes xs ys zs t =
        strBytes ("Docker version ") ++ (xs ++ (46 :: (ys ++ (46 :: (zs ++ t))))) := by
      simp [bannerBytes]
    have h1 : dropLit (strBytes ("Docker version ")) (bannerBytes xs ys zs t)
        = some (xs ++ (46 :: (ys ++ (46 :: (zs ++ t))))) := by
      rw [e0]; exact dropLit_append _ _
    have h2 : takeDigits (xs ++ (46 :: (ys ++ (46 :: (zs ++ t))))) =
        (xs, 46 :: (ys ++ (46 :: (zs ++ t)))) :=
      takeDigits_append _ _ dx (noDigitHead_dot _)
    have h3 : takeDigits (ys ++ (46 :: (zs ++ t))) = (ys, 46 :: (zs ++ t)) :=
      takeDigits_append _ _ dy (noDigitHead_dot _)
    have hdot : ∀ l : List Nat, dropLit [46] ((46 : Nat) :: l) = some l := by
      intro l
      exact dropLit_append [46] l
    have h4 : (takeDigits (zs ++ t)).1 ≠ [] := by
      cases zs with
      | nil => exact absurd rfl hz
      | cons z zs2 =>
        have hzd : isDigit z = true := by
          simp only [digitsOnly, List.all_cons, Bool.and_eq_true] at dz
          exact dz.1
        simpa using takeDigits_cons_ne_nil z (zs2 ++ t) hzd
    simp only [matchVersion, h1, h2, h3, hdot]
    simp [hx, hy, h4]
  · intro h
    cases hm : matchVersion out with
    | none => rw [hm] at h; exact absurd h (by simp)
    | some v =>
      obtain ⟨xs, ys, zs, t, hx, hy, hz, dx, dy, dz, hout, _⟩ :=
        matchVersion_some_shape out v hm
      exact ⟨xs, ys, zs, t, hx, hy, hz, dx, dy, dz, hout⟩

/-- Evaluation of the `die` call made by `docker_version`: the fixed diagnostic
contains no conversion, so interpolation succeeds and the call exits with
status 1 after writing the prefixed diagnostic line. -/
theorem die_fixed_message :
    (die dockerVersionErr [] : ProcResult (Int × Int × Int)) =
      ProcResult.exit ("error: " ++ dockerVersionErr ++ "\n") 1 := by
  have h1 : pyInterp dockerVersionErr [] = some dockerVersionErr := by decide
  unfold die
  rw [h1]
  dsimp only
  rw [pyInterp_error_line]

/-- A string beginning with the package subdirectory name is never absolute. -/
theorem strStartsWith_subdir (s : String) :
    strStartsWith ("docker_utils_aba" ++ s) ("/") = false := by
  show (dropLit ['/'] ('d' :: (("ocker_utils_aba" : String).data ++ s.data))).isSome = false
  simp [dropLit]

/-- Unfolding of `posixpath.join` for a relative second component and a first
component that is nonempty and has no trailing separator. -/
theorem os_path_join_rel (a b : String) (ha : a ≠ "")
    (ha2 : strEndsWith a ("/") = false) (hb : strStartsWith b ("/") = false) :
    os_path_join a b = a ++ "/" ++ b := by
  simp [os_path_join, ha, ha2, hb]

end DockerUtils

namespace DockerUtils

/-! ### The claims -/

/-- C1: the claim as stated is false.  With components X = "1", Y = "2",
Z = "3" and trailing bytes "4" (byte 52, an ASCII digit), the input is the
byte string "Docker version 1.2.34", and the greedy final digit group of the
regex consumes the trailing digit: `docker_version` returns (1, 2, 34),
not (1, 2, 3). -/
theorem c1_trailing_digit_counterexample :
    docker_version (bannerBytes [49] [50] [51] [52]) = ProcResult.ret (1, 2, 34) ∧
    docker_version (bannerBytes [49] [50] [51] [52]) ≠ ProcResult.ret (1, 2, 3) := by
  decide

/-- C1 (amended): for every byte string of the shape "Docker version X.Y.Z"
where X, Y, Z are nonempty decimal digit sequences, followed by arbitrary
trailing bytes that do not begin with a decimal digit, `docker_version`
returns the triple (X, Y, Z) as integers in that order. -/
theorem c1_banner_parse (xs ys zs t : List Nat)
    (hx : xs ≠ []) (hy : ys ≠ []) (hz : zs ≠ [])
    (dx : digitsOnly xs = true) (dy : digitsOnly ys = true) (dz : digitsOnly zs = true)
    (ht : noDigitHead t = true) :
    docker_version (bannerBytes xs ys zs t) =
      ProcResult.ret (intOfBytes xs, intOfBytes ys, intOfBytes zs) := by
  unfold docker_version
  rw [matchVersion_banner xs ys zs t hx hy hz dx dy dz ht]

/-- C1 witness: the spec example, with trailing text ", build f0df350",
parses to (20, 10, 7). -/
theorem c1_banner_parse_witness :
    docker_version (bannerBytes (strBytes ("20")) (strBytes ("10")) (strBytes ("7"))
      (strBytes (", build f0df350"))) = ProcResult.ret (20, 10, 7) := by
  rw [c1_banner_parse _ _ _ _ (by decide) (by decide) (by decide) (by decide) (by decide)
    (by decide) (by decide)]
  decide

/-- C2: for every byte string that does not begin with the literal prefix
"Docker version " followed by three dot-separated decimal integer components,
`docker_version` terminates the process with exit status 1 after writing to
stderr a message containing the fixed diagnostic text, and returns no value. -/
theorem c2_unmatched_input_exits (out : List Nat) (h : ¬ BannerShape out) :
    docker_version out = ProcResult.exit ("error: " ++ dockerVersionErr ++ "\n") 1 := by
  cases hm : matchVersion out with
  | some v =>
    exact absurd ((bannerShape_iff_isSome out).mpr (by rw [hm]; rfl)) h
  | none =>
    unfold docker_version
    rw [hm]
    exact die_fixed_message

/-- C2 witness: the spec example "docker version: unknown" exits with
status 1 and the diagnostic on stderr. -/
theorem c2_unmatched_input_exits_witness :
    docker_version (strBytes ("docker version: unknown")) =
      ProcResult.exit ("error: " ++ dockerVersionErr ++ "\n") 1 :=
  c2_unmatched_input_exits (strBytes ("docker version: unknown")) (fun hB => by
    have h2 := (bannerShape_iff_isSome (strBytes ("docker version: unknown"))).mp hB
    revert h2
    decide)

/-- C3: the claim as stated is false.  With template "%s" and an empty list of
substitution values, Python raises TypeError (not enough arguments for format
string) while evaluating the interpolation, so `die` writes nothing to stderr
and does not exit: the embedded call yields `ProcResult.raise`, not an exit
with status 1. -/
theorem c3_interp_failure_counterexample :
    (die ("%s") ([]) : ProcResult Unit) = ProcResult.raise := by
  decide

/-- C3 (amended): for every format template and every list of substitution
values whose interpolation is defined, `die` writes to stderr the prefix
"error: ", the interpolated message and a trailing newline, and terminates the
process with exit status 1 — never any other exit code; when the interpolation
is undefined the exception propagates instead of an exit. -/
theorem c3_die_error_exit (α : Type) (fmt : String) (args : List String) (msg : String)
    (h : pyInterp fmt args = some msg) :
    (die fmt args : ProcResult α) = ProcResult.exit ("error: " ++ msg ++ "\n") 1 := by
  unfold die
  rw [h]
  dsimp only
  rw [pyInterp_error_line]

/-- C3 witness: a concrete template with one %s conversion and one value. -/
theorem c3_die_error_exit_witness :
    (die ("unexpected output from %s") ["docker"] : ProcResult Unit) =
      ProcResult.exit ("error: unexpected output from docker\n") 1 := by
  rw [c3_die_error_exit Unit ("unexpected output from %s") ["docker"]
    ("unexpected output from docker") (by decide)]
  decide

/-- C4: for every relative path fragment, `pkg_file` returns the path obtained
by combining the resolved installation root of the docker-utils-aba
distribution with the fixed subdirectory name docker_utils_aba and the given
fragment (stated for a root in canonical form: nonempty, no trailing
separator). -/
theorem c4_pkg_file_combines (root frag : String) (hroot : root ≠ "")
    (hsep : strEndsWith root ("/") = false)
    (hfrag : strStartsWith frag ("/") = false) :
    pkg_file root frag = root ++ "/docker_utils_aba/" ++ frag := by
  have h1 : os_path_join ("docker_utils_aba") frag = "docker_utils_aba" ++ ("/" ++ frag) := by
    have c1 : strEndsWith ("docker_utils_aba") ("/") = false := by decide
    have c2 : ("docker_utils_aba" : String) ≠ "" := by decide
    rw [os_path_join_rel ("docker_utils_aba") frag c2 c1 hfrag]
    rw [String.append_assoc]
  have h2 : strStartsWith ("docker_utils_aba" ++ ("/" ++ frag)) ("/") = false :=
    strStartsWith_subdir ("/" ++ frag)
  unfold pkg_file resource_filename
  rw [h1, os_path_join_rel root _ hroot hsep h2]
  apply String.ext
  simp only [String.data_append, List.append_assoc, List.cons_append,
    List.singleton_append, List.nil_append]

/-- C4 witness: a typical dist-packages root and a bundled data file. -/
theorem c4_pkg_file_combines_witness :
    pkg_file ("/usr/lib/python3/dist-packages") ("docker-rundev-seccomp.json") =
      "/usr/lib/python3/dist-packages" ++ "/docker_utils_aba/" ++
        "docker-rundev-seccomp.json" := by
  rw [c4_pkg_file_combines ("/usr/lib/python3/dist-packages")
    ("docker-rundev-seccomp.json") (by decide) (by decide) (by decide)]

/-- C5: `pkg_file` is deterministic: two calls with the same fragment under the
same (unchanged) installation root return the same absolute path. -/
theorem c5_pkg_file_deterministic (root frag1 frag2 : String) (h : frag1 = frag2) :
    pkg_file root frag1 = pkg_file root frag2 := by
  rw [h]

/-- C5 witness: two calls with the upgrade-script fragment agree. -/
theorem c5_pkg_file_deterministic_witness :
    pkg_file ("/usr/lib/python3/dist-packages") ("docker-upgrade-script.sh") =
      pkg_file ("/usr/lib/python3/dist-packages") ("docker-upgrade-script.sh") :=
  c5_pkg_file_deterministic ("/usr/lib/python3/dist-packages")
    ("docker-upgrade-script.sh") ("docker-upgrade-script.sh") rfl

/-- C6: a banner with single-digit components parses exactly as one with
multi-digit components: the digit groups accept any width, giving (1, 0, 0)
for "Docker version 1.0.0" and (20, 10, 7) for "Docker version 20.10.7". -/
theorem c6_digit_width :
    docker_version (strBytes ("Docker version 1.0.0")) = ProcResult.ret (1, 0, 0) ∧
    docker_version (strBytes ("Docker version 20.10.7")) = ProcResult.ret (20, 10, 7) := by
  decide

/-- C7: whenever `docker_version` returns a value rather than terminating, the
value is an ordered triple of three non-negative integers. -/
theorem c7_ret_triple_nonneg (out : List Nat) (a b c : Int)
    (h : docker_version out = ProcResult.ret (a, b, c)) :
    0 ≤ a ∧ 0 ≤ b ∧ 0 ≤ c := by
  cases hm : matchVersion out with
  | none =>
    exfalso
    unfold docker_version at h
    rw [hm] at h
    dsimp only at h
    rw [die_fixed_message] at h
    exact absurd h (by simp)
  | some v =>
    unfold docker_version at h
    rw [hm] at h
    dsimp only at h
    have hv : v = (a, b, c) := by simpa using h
    obtain ⟨xs, ys, zs, t, _, _, _, dx, dy, dz, _, hval⟩ :=
      matchVersion_some_shape out v hm
    rw [hv] at hval
    have ha : a = intOfBytes xs := congrArg (fun p => p.1) hval
    have hb : b = intOfBytes ys := congrArg (fun p => p.2.1) hval
    have hc : c = intOfBytes zs := congrArg (fun p => p.2.2) hval
    subst ha hb hc
    exact ⟨intOfBytes_nonneg xs dx, intOfBytes_nonneg ys dy, intOfBytes_nonneg zs dz⟩

/-- C7 witness: at the banner "Docker version 1.2.3" the returned components
are non-negative. -/
theorem c7_ret_triple_nonneg_witness :
    (0 : Int) ≤ 1 ∧ (0 : Int) ≤ 2 ∧ (0 : Int) ≤ 3 :=
  c7_ret_triple_nonneg (strBytes ("Docker version 1.2.3")) 1 2 3 (by decide)

/-- C8: components with leading zeros are accepted and read as decimal
integers: "Docker version 01.002.3" yields (1, 2, 3) — neither a parse
failure nor an octal interpretation. -/
theorem c8_leading_zeros :
    docker_version (strBytes ("Docker version 01.002.3")) = ProcResult.ret (1, 2, 3) := by
  decide

/-- C9: digit sequences of arbitrary length are parsed to their exact unbounded
decimal integer values, with no overflow or truncation: for all nonempty digit
sequences X, Y, Z the banner "Docker version X.Y.Z" yields exactly their
values. -/
theorem c9_exact_decimal (xs ys zs : List Nat)
    (hx : xs ≠ []) (hy : ys ≠ []) (hz : zs ≠ [])
    (dx : digitsOnly xs = true) (dy : digitsOnly ys = true) (dz : digitsOnly zs = true) :
    docker_version (bannerBytes xs ys zs []) =
      ProcResult.ret (intOfBytes xs, intOfBytes ys, intOfBytes zs) := by
  unfold docker_version
  rw [matchVersion_banner xs ys zs [] hx hy hz dx dy dz rfl]

/-- C9 witness: a 39-digit major component (2 to the power 128) is returned
exactly. -/
theorem c9_exact_decimal_witness :
    docker_version (bannerBytes (strBytes ("340282366920938463463374607431768211456"))
      (strBytes ("10")) (strBytes ("7")) []) =
      ProcResult.ret (340282366920938463463374607431768211456, 10, 7) := by
  rw [c9_exact_decimal _ _ _ (by decide) (by decide) (by decide) (by decide) (by decide)
    (by decide)]
  decide

/-- C10: `pkg_file` does not validate its fragment: for an absolute fragment
the inner path join discards the fixed docker_utils_aba subdirectory, so the
resource name passed on equals the fragment itself and the lookup escapes the
package subdirectory. -/
theorem c10_absolute_fragment_escapes (root frag : String)
    (h : strStartsWith frag ("/") = true) :
    os_path_join ("docker_utils_aba") frag = frag ∧
    pkg_file root frag = resource_filename root frag := by
  have hj : os_path_join ("docker_utils_aba") frag = frag := by
    unfold os_path_join
    rw [h]
    rfl
  refine ⟨hj, ?_⟩
  unfold pkg_file
  rw [hj]

/-- C10 witness: an absolute fragment reaches the resource lookup unchanged. -/
theorem c10_absolute_fragment_escapes_witness :
    os_path_join ("docker_utils_aba") ("/etc/passwd") = "/etc/passwd" ∧
    pkg_file ("/usr/lib/python3/dist-packages") ("/etc/passwd") =
      resource_filename ("/usr/lib/python3/dist-packages") ("/etc/passwd") :=
  c10_absolute_fragment_escapes ("/usr/lib/python3/dist-packages") ("/etc/passwd")
    (by decide)

end DockerUtils
